import Mathlib

/-!
# Verification of the SAPT0-AO energy assembly

A shallow embedding, over `ℚ`, of the SAPT0-AO computation from
`Tutorials/07_Symmetry_Adapted_Perturbation_Theory/7b_sapt0_ao.ipynb`.
Dense matrices become `Matrix (Fin n) (Fin m) ℚ`, the rank-4 two-electron
integral tensor becomes a curried function, `np.vdot` becomes the Frobenius
inner product, `np.einsum` contractions become explicit `Finset` sums, and
`sapt.chain_dot` (a chain of `np.dot` calls) becomes matrix multiplication.

The JK-builder `helper_SAPT.compute_sapt_JK` is external to the notebook
source; it is modelled from the spec's §4.1 contract.
-/

namespace Sapt

/-- Dense rational matrix, standing in for a 2-D `numpy` array. -/
abbrev Mat (n m : ℕ) : Type := Matrix (Fin n) (Fin m) ℚ

/-- Rank-4 tensor over one index set, standing in for the AO two-electron
integral array `I[K,L,M,N]` in chemist order `(KL|MN)`. -/
abbrev Ten (n : ℕ) : Type := Fin n → Fin n → Fin n → Fin n → ℚ

/-- `np.vdot` on real matrices: the element-wise (Frobenius) inner product. -/
def vdot {n m : ℕ} (A B : Mat n m) : ℚ := ∑ k, ∑ l, A k l * B k l

/-- Generalized Coulomb operator `J[X]_{KL} = (KL|MN) X_{MN}`. -/
def Jop {n : ℕ} (I : Ten n) (X : Mat n n) : Mat n n :=
  Matrix.of fun K L => ∑ M, ∑ N, I K L M N * X M N

/-- Generalized exchange operator `K[X]_{KL} = (KM|NL) X_{MN}`. -/
def Kop {n : ℕ} (I : Ten n) (X : Mat n n) : Mat n n :=
  Matrix.of fun K L => ∑ M, ∑ N, I K M N L * X M N

/-- The two symmetries of the chemist-ordered two-electron tensor stated by
the data model: each bra/ket pair is symmetric and the two pairs commute,
`(KL|MN) = (LK|MN) = (KL|NM) = (MN|KL)`. -/
def pairSym {n : ℕ} (I : Ten n) : Prop :=
  ∀ K L M N, I K L M N = I L K M N ∧ I K L M N = I K L N M ∧ I K L M N = I M N K L

instance {n : ℕ} (I : Ten n) : Decidable (pairSym I) := by
  unfold pairSym; infer_instance

/-- Modelled from the spec: `helper_SAPT.compute_sapt_JK` is not part of the
notebook source under `src/`.  Per §4.1, given orbital matrices `A` (AO×n1),
`B` (AO×n2) and a tag matrix `T` (n1×n2, identity-equivalent default), it
returns the pair `(J[X], K[X])` with `X = A·T·Bᵀ`. -/
def compute_sapt_JK {n n1 n2 : ℕ} (I : Ten n) (A : Mat n n1) (B : Mat n n2)
    (T : Mat n1 n2) : Mat n n × Mat n n :=
  (Jop I (A * T * B.transpose), Kop I (A * T * B.transpose))

/-- The inputs the notebook obtains from its external collaborators (SCF,
integral engine, CPHF response solver): orbital coefficients for the four
orbital spaces, one-electron matrices, the AO two-electron tensor, orbital
energies, MO dispersion integral slices, and the CPHF solver outputs. -/
structure SaptIn (nbf na nb nr ns : ℕ) where
  I : Ten nbf
  S : Mat nbf nbf
  V_A : Mat nbf nbf
  V_B : Mat nbf nbf
  Ci : Mat nbf na
  Cj : Mat nbf nb
  Cr : Mat nbf nr
  Cs : Mat nbf ns
  nuc_rep : ℚ
  eps_a : Fin na → ℚ
  eps_b : Fin nb → ℚ
  eps_r : Fin nr → ℚ
  eps_s : Fin ns → ℚ
  v_abrs : Fin na → Fin nb → Fin nr → Fin ns → ℚ
  v_rsab : Fin nr → Fin ns → Fin na → Fin nb → ℚ
  CPHF_ra : Mat nr na
  CPHF_sb : Mat ns nb
  Ind20_ba : ℚ
  Ind20_ab : ℚ

variable {nbf na nb nr ns : ℕ}

/-- Monomer-label swap A↔B applied uniformly to every external input:
densities/potentials, orbital spaces `a↔b`, `r↔s`, orbital energies, MO
integral slices (reindexed accordingly), CPHF amplitudes and the two
directional induction energies. -/
def swapAB (s : SaptIn nbf na nb nr ns) : SaptIn nbf nb na ns nr where
  I := s.I
  S := s.S
  V_A := s.V_B
  V_B := s.V_A
  Ci := s.Cj
  Cj := s.Ci
  Cr := s.Cs
  Cs := s.Cr
  nuc_rep := s.nuc_rep
  eps_a := s.eps_b
  eps_b := s.eps_a
  eps_r := s.eps_s
  eps_s := s.eps_r
  v_abrs := fun b a sx r => s.v_abrs a b r sx
  v_rsab := fun sx r b a => s.v_rsab r sx a b
  CPHF_ra := s.CPHF_sb
  CPHF_sb := s.CPHF_ra
  Ind20_ba := s.Ind20_ab
  Ind20_ab := s.Ind20_ba

/-! ## Cell "Build intermediates" -/

/-- `Pi = np.dot(sapt.orbitals['a'], sapt.orbitals['a'].T)`: half the
monomer-A AO density. -/
def Pmat_A (s : SaptIn nbf na nb nr ns) : Mat nbf nbf := s.Ci * s.Ci.transpose

/-- `Pj = np.dot(sapt.orbitals['b'], sapt.orbitals['b'].T)`. -/
def Pmat_B (s : SaptIn nbf na nb nr ns) : Mat nbf nbf := s.Cj * s.Cj.transpose

/-- `Jii, Kii = sapt.compute_sapt_JK(Ci, Ci)` (identity-equivalent tag). -/
def Jii (s : SaptIn nbf na nb nr ns) : Mat nbf nbf :=
  (compute_sapt_JK s.I s.Ci s.Ci 1).1

def Kii (s : SaptIn nbf na nb nr ns) : Mat nbf nbf :=
  (compute_sapt_JK s.I s.Ci s.Ci 1).2

/-- `Jjj, Kjj = sapt.compute_sapt_JK(Cj, Cj)`. -/
def Jjj (s : SaptIn nbf na nb nr ns) : Mat nbf nbf :=
  (compute_sapt_JK s.I s.Cj s.Cj 1).1

def Kjj (s : SaptIn nbf na nb nr ns) : Mat nbf nbf :=
  (compute_sapt_JK s.I s.Cj s.Cj 1).2

/-- `Jij, Kij = sapt.compute_sapt_JK(Ci, Cj, tensor=sapt.chain_dot(Ci.T, S, Cj))`. -/
def Jij (s : SaptIn nbf na nb nr ns) : Mat nbf nbf :=
  (compute_sapt_JK s.I s.Ci s.Cj (s.Ci.transpose * s.S * s.Cj)).1

def Kij (s : SaptIn nbf na nb nr ns) : Mat nbf nbf :=
  (compute_sapt_JK s.I s.Ci s.Cj (s.Ci.transpose * s.S * s.Cj)).2

/-- `w_A = sapt.V_A + 2 * Jii`. -/
def w_A (s : SaptIn nbf na nb nr ns) : Mat nbf nbf := s.V_A + 2 • Jii s

/-- `w_B = sapt.V_B + 2 * Jjj`. -/
def w_B (s : SaptIn nbf na nb nr ns) : Mat nbf nbf := s.V_B + 2 • Jjj s

/-- `h_A = sapt.V_A + 2 * Jii - Kii`. -/
def h_A (s : SaptIn nbf na nb nr ns) : Mat nbf nbf := s.V_A + 2 • Jii s - Kii s

/-- `h_B = sapt.V_B + 2 * Jjj - Kjj`. -/
def h_B (s : SaptIn nbf na nb nr ns) : Mat nbf nbf := s.V_B + 2 • Jjj s - Kjj s

/-! ## Cell "Build electrostatics" -/

/-- The electrostatics cell as a function of the variables it reads:
`elst_ijij = 2 * (two_el + att_a + att_b) + rep` with
`two_el = 2*np.vdot(Pi, Jjj)`, `att_a = np.vdot(sapt.V_A, Pj)`,
`att_b = np.vdot(sapt.V_B, Pi)`. -/
def elstAsm {n : ℕ} (Pi Pj Jjj VA VB : Mat n n) (rep : ℚ) : ℚ :=
  2 * (2 * vdot Pi Jjj + vdot VA Pj + vdot VB Pi) + rep

/-- `Elst10` as computed by the notebook. -/
def Elst10 (s : SaptIn nbf na nb nr ns) : ℚ :=
  elstAsm (Pmat_A s) (Pmat_B s) (Jjj s) s.V_A s.V_B s.nuc_rep

/-! ## Cell "Start exchange" -/

/-- The first-order exchange cell as a function of the variables it reads,
with the accumulation order of the source (`exch = 0`, then `-=`, `-=`,
`+=`, `+=`, `-=`). -/
def exchAsm {n : ℕ} (Pi Pj S hA hB wA wB Kii Kij : Mat n n) : ℚ :=
  0 - 2 * vdot Pj Kii
    - 2 * vdot (Pi * S * Pj) (hA + hB)
    + 2 * vdot (Pj * S * Pi * S * Pj) wA
    + 2 * vdot (Pi * S * Pj * S * Pi) wB
    - 2 * vdot (Pi * S * Pj) Kij

/-- `Exch100` as computed by the notebook. -/
def Exch100 (s : SaptIn nbf na nb nr ns) : ℚ :=
  exchAsm (Pmat_A s) (Pmat_B s) s.S (h_A s) (h_B s) (w_A s) (w_B s) (Kii s) (Kij s)

/-! ## Cell "Start E200 Disp" -/

/-- `e_rsab = 1/(-sapt.eps('r',dim=4) - sapt.eps('s',dim=3) + sapt.eps('a',dim=2)
+ sapt.eps('b'))`, the broadcast energy-denominator reciprocal. -/
def e_rsab (s : SaptIn nbf na nb nr ns) :
    Fin nr → Fin ns → Fin na → Fin nb → ℚ :=
  fun r t a b => 1 / (-(s.eps_r r) - s.eps_s t + s.eps_a a + s.eps_b b)

/-- `Disp200 = 4 * np.einsum('rsab,rsab,abrs->', e_rsab, v_rsab, v_abrs)`. -/
def Disp200 (s : SaptIn nbf na nb nr ns) : ℚ :=
  4 * ∑ r, ∑ t, ∑ a, ∑ b, e_rsab s r t a b * s.v_rsab r t a b * s.v_abrs a b r t

/-! ## Cell "Start E200 Exchange-Dispersion"

The four back-transformation steps and the energy assembly are functions of
the raw amplitude tensor, which the cell instantiates at `t_rsab`. -/

/-- `t_rsab = np.einsum('rsab,rsab->rsab', v_rsab, e_rsab)`. -/
def t_rsab (s : SaptIn nbf na nb nr ns) : Fin nr → Fin ns → Fin na → Fin nb → ℚ :=
  fun r t a b => s.v_rsab r t a b * e_rsab s r t a b

/-- `t_lsab = np.einsum('rsab,rl->lsab', t_rsab, Cr.T)` (note `Cr.T[r,l] = Cr[l,r]`). -/
def t_lsab (s : SaptIn nbf na nb nr ns) (t : Fin nr → Fin ns → Fin na → Fin nb → ℚ) :
    Fin nbf → Fin ns → Fin na → Fin nb → ℚ :=
  fun l u a b => ∑ r, t r u a b * s.Cr l r

/-- `t_lnab = np.einsum('lsab,sn->lnab', t_lsab, Cs.T)`. -/
def t_lnab (s : SaptIn nbf na nb nr ns) (t : Fin nr → Fin ns → Fin na → Fin nb → ℚ) :
    Fin nbf → Fin nbf → Fin na → Fin nb → ℚ :=
  fun l n a b => ∑ u, t_lsab s t l u a b * s.Cs n u

/-- `t_lnkb = np.einsum('lnab,ak->lnkb', t_lnab, Ci.T)`. -/
def t_lnkb (s : SaptIn nbf na nb nr ns) (t : Fin nr → Fin ns → Fin na → Fin nb → ℚ) :
    Fin nbf → Fin nbf → Fin nbf → Fin nb → ℚ :=
  fun l n k b => ∑ a, t_lnab s t l n a b * s.Ci k a

/-- `t_lnkm = np.einsum('lnkb,bm->lnkm', t_lnkb, Cj.T)`: the AO
back-transformed amplitude. -/
def t_lnkm (s : SaptIn nbf na nb nr ns) (t : Fin nr → Fin ns → Fin na → Fin nb → ℚ) :
    Ten nbf :=
  fun l n k m => ∑ b, t_lnkb s t l n k b * s.Cj m b

/-- First reused intermediate:
`interm = 2 * np.einsum('klmq,nq->klmn', I, np.dot(S, Pi))`. -/
def interm1 (s : SaptIn nbf na nb nr ns) : Ten nbf :=
  fun k l m n => 2 * ∑ q, s.I k l m q * (s.S * Pmat_A s) n q

/-- Second reused intermediate:
`interm = 2 * np.einsum('klmq,nq->klmn', I, np.dot(S, Pj))`. -/
def interm2 (s : SaptIn nbf na nb nr ns) : Ten nbf :=
  fun k l m n => 2 * ∑ q, s.I k l m q * (s.S * Pmat_B s) n q

/-- `spbspa = sapt.chain_dot(S, Pj, S, Pi)`. -/
def spbspa (s : SaptIn nbf na nb nr ns) : Mat nbf nbf := s.S * Pmat_B s * s.S * Pmat_A s

/-- `spaspb = sapt.chain_dot(S, Pi, S, Pj)`. -/
def spaspb (s : SaptIn nbf na nb nr ns) : Mat nbf nbf := s.S * Pmat_A s * s.S * Pmat_B s

/-- Third reused intermediate, the four-fold `interm` accumulated from
`('kqmn,lq->klmn')`, `('plmn,kp->klmn')`, `('klms,ns->klmn')`,
`('klrn,mr->klmn')` contractions against `spbspa`/`spaspb`. -/
def interm3 (s : SaptIn nbf na nb nr ns) : Ten nbf :=
  fun k l m n =>
    (∑ q, s.I k q m n * spbspa s l q) + (∑ p, s.I p l m n * spbspa s k p)
      + (∑ u, s.I k l m u * spaspb s n u) + (∑ r, s.I k l r n * spaspb s m r)

/-- Fourth reused intermediate:
`interm = np.einsum('kpmq,nq->kpmn', I, spa)` then
`interm = np.einsum('kpmn,lp->klmn', interm, spb)`. -/
def interm4 (s : SaptIn nbf na nb nr ns) : Ten nbf :=
  fun k l m n => ∑ p, (∑ q, s.I k p m q * (s.S * Pmat_A s) n q) * (s.S * Pmat_B s) l p

/-- The exchange-dispersion energy assembly: the nineteen accumulation
statements of the cell, as a function of the back-transformed amplitude `T`. -/
def exchDispAsm (s : SaptIn nbf na nb nr ns) (T : Ten nbf) : ℚ :=
  -2 * (∑ l, ∑ n, ∑ k, ∑ m, T l n k m * s.I k n m l)
    - 2 * (∑ l, ∑ n, ∑ k, ∑ m, T l n k m * h_A s m l * s.S k n)
    - 2 * (∑ l, ∑ n, ∑ k, ∑ m, T l n k m * s.S m l * h_B s k n)
    - 2 * (∑ l, ∑ n, ∑ k, ∑ m, T l n k m * interm1 s k l m n)
    + (∑ l, ∑ n, ∑ k, ∑ m, T l n k m * interm1 s m l k n)
    - 2 * (∑ l, ∑ n, ∑ k, ∑ m, T l n k m * interm2 s m n k l)
    + (∑ l, ∑ n, ∑ k, ∑ m, T l n k m * interm2 s k n m l)
    - 4 * (∑ l, ∑ n, ∑ k, ∑ m, T l n k m * w_A s m n * (s.S * Pmat_B s * s.S) k l)
    + 2 * (∑ l, ∑ n, ∑ k, ∑ m, T l n k m * s.S k n * (w_A s * Pmat_B s * s.S) m l)
    + 2 * (∑ l, ∑ n, ∑ k, ∑ m, T l n k m * s.S m l * (w_A s * Pmat_B s * s.S) n k)
    - 4 * (∑ l, ∑ n, ∑ k, ∑ m, T l n k m * w_B s k l * (s.S * Pmat_A s * s.S) m n)
    + 2 * (∑ l, ∑ n, ∑ k, ∑ m, T l n k m * s.S m l * (w_B s * Pmat_A s * s.S) k n)
    + 2 * (∑ l, ∑ n, ∑ k, ∑ m, T l n k m * s.S k n * (w_B s * Pmat_A s * s.S) l m)
    + 4 * (∑ l, ∑ n, ∑ k, ∑ m, T l n k m * interm3 s k l m n)
    - 2 * (∑ l, ∑ n, ∑ k, ∑ m, T l n k m * s.S k n * (Kij s).transpose m l)
    - 2 * (∑ l, ∑ n, ∑ k, ∑ m, T l n k m * s.S m l * (Kij s).transpose n k)
    - 2 * (∑ l, ∑ n, ∑ k, ∑ m, T l n k m * interm4 s m l k n)
    - 2 * (∑ l, ∑ n, ∑ k, ∑ m, T l n k m * interm4 s n k l m)

/-- `ExchDisp20` as computed by the notebook. -/
def ExchDisp20 (s : SaptIn nbf na nb nr ns) : ℚ :=
  exchDispAsm s (t_lnkm s (t_rsab s))

/-! ## Cells "E200 Induction" and "Exchange-Induction" -/

/-- `CPHFA_ao = sapt.chain_dot(Ci, CPHF_ra.T, Cr.T)`. -/
def CPHFA_ao (s : SaptIn nbf na nb nr ns) : Mat nbf nbf :=
  s.Ci * s.CPHF_ra.transpose * s.Cr.transpose

/-- `CPHFB_ao = sapt.chain_dot(Cj, CPHF_sb.T, Cs.T)`. -/
def CPHFB_ao (s : SaptIn nbf na nb nr ns) : Mat nbf nbf :=
  s.Cj * s.CPHF_sb.transpose * s.Cs.transpose

/-- `Jjij, Kjij = sapt.compute_sapt_JK(Cj, Cj, tensor=sapt.chain_dot(Cj.T, S, Pi, S, Cj))`. -/
def Jjij (s : SaptIn nbf na nb nr ns) : Mat nbf nbf :=
  (compute_sapt_JK s.I s.Cj s.Cj (s.Cj.transpose * s.S * Pmat_A s * s.S * s.Cj)).1

def Kjij (s : SaptIn nbf na nb nr ns) : Mat nbf nbf :=
  (compute_sapt_JK s.I s.Cj s.Cj (s.Cj.transpose * s.S * Pmat_A s * s.S * s.Cj)).2

/-- `Jiji, Kiji = sapt.compute_sapt_JK(Ci, Ci, tensor=sapt.chain_dot(Ci.T, S, Pj, S, Ci))`. -/
def Jiji (s : SaptIn nbf na nb nr ns) : Mat nbf nbf :=
  (compute_sapt_JK s.I s.Ci s.Ci (s.Ci.transpose * s.S * Pmat_B s * s.S * s.Ci)).1

def Kiji (s : SaptIn nbf na nb nr ns) : Mat nbf nbf :=
  (compute_sapt_JK s.I s.Ci s.Ci (s.Ci.transpose * s.S * Pmat_B s * s.S * s.Ci)).2

/-- The A←B exchange-induction assembly: the eleven accumulation statements
of the cell, as a function of the variables the cell reads; `Jv`,`Kv` stand
for the destructured result `Jjij, Kjij` of the extra JK-builder call. -/
def exchIndABAsm {n : ℕ} (C Kjj S Pj hA hB Jij Kij wB Pi wA Jv Kv : Mat n n) : ℚ :=
  -2 * vdot C Kjj
    - 2 * vdot C (S * Pj * hA)
    - 2 * vdot C (hB * Pj * S)
    - 4 * vdot C Jij
    + 2 * vdot C Kij
    + 2 * vdot C (wB * Pi * S * Pj * S)
    + 2 * vdot C (S * Pj * S * Pi * wB)
    + 2 * vdot C (S * Pj * wA * Pj * S)
    + 4 * vdot C Jv
    - 2 * vdot C (S * Pj * Kij.transpose)
    - 2 * vdot C (Kij * Pj * S)

/-- The B←A exchange-induction assembly, mirroring the cell's hand-written
B←A statements; `Jv`,`Kv` stand for the destructured `Jiji, Kiji`. -/
def exchIndBAAsm {n : ℕ} (C Kii S Pi hB hA Jij Kij wA Pj wB Jv Kv : Mat n n) : ℚ :=
  -2 * vdot C Kii
    - 2 * vdot C (S * Pi * hB)
    - 2 * vdot C (hA * Pi * S)
    - 4 * vdot C Jij
    + 2 * vdot C Kij.transpose
    + 2 * vdot C (wA * Pj * S * Pi * S)
    + 2 * vdot C (S * Pi * S * Pj * wA)
    + 2 * vdot C (S * Pi * wB * Pi * S)
    + 4 * vdot C Jv
    - 2 * vdot C (S * Pi * Kij)
    - 2 * vdot C (Kij.transpose * Pi * S)

/-- A←B exchange-induction with the dead `Kjij` value left as a parameter. -/
def ExchInd20_ab_with (s : SaptIn nbf na nb nr ns) (Kv : Mat nbf nbf) : ℚ :=
  exchIndABAsm (CPHFA_ao s) (Kjj s) s.S (Pmat_B s) (h_A s) (h_B s) (Jij s) (Kij s)
    (w_B s) (Pmat_A s) (w_A s) (Jjij s) Kv

/-- `ExchInd20_ab` as computed by the notebook. -/
def ExchInd20_ab (s : SaptIn nbf na nb nr ns) : ℚ := ExchInd20_ab_with s (Kjij s)

/-- B←A exchange-induction with the dead `Kiji` value left as a parameter. -/
def ExchInd20_ba_with (s : SaptIn nbf na nb nr ns) (Kv : Mat nbf nbf) : ℚ :=
  exchIndBAAsm (CPHFB_ao s) (Kii s) s.S (Pmat_A s) (h_B s) (h_A s) (Jij s) (Kij s)
    (w_A s) (Pmat_B s) (w_B s) (Jiji s) Kv

/-- `ExchInd20_ba` as computed by the notebook. -/
def ExchInd20_ba (s : SaptIn nbf na nb nr ns) : ℚ := ExchInd20_ba_with s (Kiji s)

/-- `Ind20r = Ind20_ba + Ind20_ab` (both returned by the external CPHF solver). -/
def Ind20r (s : SaptIn nbf na nb nr ns) : ℚ := s.Ind20_ba + s.Ind20_ab

/-- `ExchInd20r = ExchInd20_ba + ExchInd20_ab`. -/
def ExchInd20r (s : SaptIn nbf na nb nr ns) : ℚ := ExchInd20_ba s + ExchInd20_ab s

/-- The SAPT0 total with the two dead exchange-operator values exposed. -/
def sapt0With (s : SaptIn nbf na nb nr ns) (K1 K2 : Mat nbf nbf) : ℚ :=
  Exch100 s + Elst10 s + Disp200 s + ExchDisp20 s + Ind20r s
    + (ExchInd20_ba_with s K2 + ExchInd20_ab_with s K1)

/-- `sapt0 = Exch100 + Elst10 + Disp200 + ExchDisp20 + Ind20r + ExchInd20r`. -/
def sapt0 (s : SaptIn nbf na nb nr ns) : ℚ :=
  Exch100 s + Elst10 s + Disp200 s + ExchDisp20 s + Ind20r s + ExchInd20r s

/-! ## The documented exchange-dispersion expression

The notebook's markdown gives `E^(200)_exch-disp` as a single contraction of
`t_{KM}^{LN} = t_{ab}^{rs} C_{Ka} C_{Mb} C_{Lr} C_{Ns}` against a bracketed
21-term expression; here it is transcribed verbatim, with
`K[P^B S P^A]` rendered through the generalized exchange operator `Kop`. -/

/-- The documented AO back-transformation, as one quadruple contraction,
read as a function of `(L,N,K,M)` in the code's `lnkm` index order. -/
def tDirect (s : SaptIn nbf na nb nr ns)
    (t : Fin nr → Fin ns → Fin na → Fin nb → ℚ) : Ten nbf :=
  fun l n k m => ∑ r, ∑ u, ∑ a, ∑ b,
    t r u a b * s.Ci k a * s.Cj m b * s.Cr l r * s.Cs n u

/-- The bracketed factor of the documented exchange-dispersion formula, a
function of the four free AO indices `K,L,M,N`; each of the 21 terms carries
exactly the published coefficient and index permutation. -/
def bracket (s : SaptIn nbf na nb nr ns) (k l m n : Fin nbf) : ℚ :=
  (-2) * s.I k n m l
    + (-2) * (s.S k n * h_A s m l)
    + (-2) * (s.S m l * h_B s k n)
    + (-4) * (∑ q, s.I k l m q * (s.S * Pmat_A s) n q)
    + 2 * (∑ q, s.I m l k q * (s.S * Pmat_A s) n q)
    + (-4) * (∑ q, s.I m n k q * (s.S * Pmat_B s) l q)
    + 2 * (∑ q, s.I k n m q * (s.S * Pmat_B s) l q)
    + (-4) * (w_A s m n * (s.S * Pmat_B s * s.S) k l)
    + 2 * (s.S k n * (w_A s * Pmat_B s * s.S) m l)
    + 2 * (s.S m l * (w_A s * Pmat_B s * s.S) n k)
    + (-4) * (w_B s k l * (s.S * Pmat_A s * s.S) m n)
    + 2 * (s.S m l * (w_B s * Pmat_A s * s.S) k n)
    + 2 * (s.S k n * (w_B s * Pmat_A s * s.S) l m)
    + 4 * (∑ q, s.I k q m n * (s.S * Pmat_B s * s.S * Pmat_A s) l q)
    + 4 * (∑ p, s.I p l m n * (s.S * Pmat_B s * s.S * Pmat_A s) k p)
    + 4 * (∑ u, s.I k l m u * (s.S * Pmat_A s * s.S * Pmat_B s) n u)
    + 4 * (∑ r, s.I k l r n * (s.S * Pmat_A s * s.S * Pmat_B s) m r)
    + (-2) * (s.S k n * Kop s.I (Pmat_B s * s.S * Pmat_A s) m l)
    + (-2) * (s.S m l * Kop s.I (Pmat_B s * s.S * Pmat_A s) n k)
    + (-2) * (∑ u, ∑ q, s.I m u k q * (s.S * Pmat_B s) l u * (s.S * Pmat_A s) n q)
    + (-2) * (∑ u, ∑ q, s.I n u l q * (s.S * Pmat_B s) k u * (s.S * Pmat_A s) m q)

/-- The documented exchange-dispersion energy: `t_{KM}^{LN}` contracted
against the bracketed expression over all four AO indices. -/
def ExchDisp20doc (s : SaptIn nbf na nb nr ns) : ℚ :=
  ∑ l, ∑ n, ∑ k, ∑ m, tDirect s (t_rsab s) l n k m * bracket s k l m n

/-- A concrete 1-basis-function input with symmetric matrices, symmetric
integral tensor and nonvanishing dispersion denominator. -/
def sEx : SaptIn 1 1 1 1 1 where
  I := fun _ _ _ _ => 1
  S := Matrix.of fun _ _ => 1
  V_A := Matrix.of fun _ _ => 2
  V_B := Matrix.of fun _ _ => 3
  Ci := Matrix.of fun _ _ => 1
  Cj := Matrix.of fun _ _ => 2
  Cr := Matrix.of fun _ _ => 1
  Cs := Matrix.of fun _ _ => 1
  nuc_rep := 5
  eps_a := fun _ => 2
  eps_b := fun _ => 1
  eps_r := fun _ => 1
  eps_s := fun _ => -1
  v_abrs := fun _ _ _ _ => 1
  v_rsab := fun _ _ _ _ => 2
  CPHF_ra := Matrix.of fun _ _ => 1
  CPHF_sb := Matrix.of fun _ _ => 1
  Ind20_ba := 7
  Ind20_ab := 11

/-- A concrete input whose dispersion energy denominator
`ε_a+ε_b−ε_r−ε_s` is exactly zero while the integral slices are nonzero. -/
def sZero : SaptIn 1 1 1 1 1 where
  I := fun _ _ _ _ => 1
  S := Matrix.of fun _ _ => 1
  V_A := Matrix.of fun _ _ => 0
  V_B := Matrix.of fun _ _ => 0
  Ci := Matrix.of fun _ _ => 1
  Cj := Matrix.of fun _ _ => 1
  Cr := Matrix.of fun _ _ => 1
  Cs := Matrix.of fun _ _ => 1
  nuc_rep := 0
  eps_a := fun _ => 0
  eps_b := fun _ => 0
  eps_r := fun _ => 0
  eps_s := fun _ => 0
  v_abrs := fun _ _ _ _ => 1
  v_rsab := fun _ _ _ _ => 1
  CPHF_ra := Matrix.of fun _ _ => 0
  CPHF_sb := Matrix.of fun _ _ => 0
  Ind20_ba := 0
  Ind20_ab := 0

/-! ## Helper lemmas: sums and symmetries -/

lemma sum_swap3 {n1 n2 n3 : ℕ} (f : Fin n1 → Fin n2 → Fin n3 → ℚ) :
    (∑ a, ∑ b, ∑ u, f a b u) = ∑ u, ∑ a, ∑ b, f a b u := by
  rw [Finset.sum_congr rfl fun a _ => Finset.sum_comm (f := fun b u => f a b u)]
  exact Finset.sum_comm

lemma sum4_swap {n1 n2 n3 n4 : ℕ} (f : Fin n1 → Fin n2 → Fin n3 → Fin n4 → ℚ) :
    (∑ a, ∑ b, ∑ u, ∑ d, f a b u d) = ∑ u, ∑ d, ∑ a, ∑ b, f a b u d := by
  rw [Finset.sum_congr rfl fun a _ =>
    (sum_swap3 fun b u d => f a b u d).trans (sum_swap3 fun d b u => f a b u d)]
  exact (sum_swap3 fun a u d => ∑ b, f a b u d).trans
    (sum_swap3 fun d a u => ∑ b, f a b u d)

lemma sum4_congr {n1 n2 n3 n4 : ℕ} {f g : Fin n1 → Fin n2 → Fin n3 → Fin n4 → ℚ}
    (h : ∀ a b u d, f a b u d = g a b u d) :
    (∑ a, ∑ b, ∑ u, ∑ d, f a b u d) = ∑ a, ∑ b, ∑ u, ∑ d, g a b u d :=
  Finset.sum_congr rfl fun a _ => Finset.sum_congr rfl fun b _ =>
    Finset.sum_congr rfl fun u _ => Finset.sum_congr rfl fun d _ => h a b u d

lemma mul_sum4 {n1 n2 n3 n4 : ℕ} (c : ℚ) (f : Fin n1 → Fin n2 → Fin n3 → Fin n4 → ℚ) :
    (c * ∑ a, ∑ b, ∑ u, ∑ d, f a b u d) = ∑ a, ∑ b, ∑ u, ∑ d, c * f a b u d := by
  simp [Finset.mul_sum]

lemma Pmat_A_symm (s : SaptIn nbf na nb nr ns) : (Pmat_A s).transpose = Pmat_A s := by
  unfold Pmat_A
  rw [Matrix.transpose_mul, Matrix.transpose_transpose]

lemma Pmat_B_symm (s : SaptIn nbf na nb nr ns) : (Pmat_B s).transpose = Pmat_B s := by
  unfold Pmat_B
  rw [Matrix.transpose_mul, Matrix.transpose_transpose]

lemma Jop_transpose_arg {n : ℕ} {I : Ten n} (hI : pairSym I) (X : Mat n n) :
    Jop I X.transpose = Jop I X := by
  ext K L
  simp only [Jop, Matrix.of_apply, Matrix.transpose_apply]
  rw [Finset.sum_congr rfl fun M _ => Finset.sum_congr rfl fun N _ =>
    (by rw [(hI K L M N).2.1] : I K L M N * X N M = I K L N M * X N M)]
  exact Finset.sum_comm

lemma Jop_symm {n : ℕ} {I : Ten n} (hI : pairSym I) (X : Mat n n) :
    (Jop I X).transpose = Jop I X := by
  ext K L
  simp only [Jop, Matrix.of_apply, Matrix.transpose_apply]
  exact Finset.sum_congr rfl fun M _ => Finset.sum_congr rfl fun N _ => by
    rw [(hI K L M N).1]

lemma Kop_transpose {n : ℕ} {I : Ten n} (hI : pairSym I) (X : Mat n n) :
    (Kop I X).transpose = Kop I X.transpose := by
  ext K L
  simp only [Kop, Matrix.of_apply, Matrix.transpose_apply]
  rw [Finset.sum_comm]
  refine Finset.sum_congr rfl fun o _ => Finset.sum_congr rfl fun i _ => ?_
  rw [(hI L i o K).2.2, (hI o K L i).1, (hI K o L i).2.1]

lemma vdot_comm {n m : ℕ} (A B : Mat n m) : vdot A B = vdot B A :=
  Finset.sum_congr rfl fun k _ => Finset.sum_congr rfl fun l _ => mul_comm _ _

lemma vdot_transpose {n m : ℕ} (A : Mat n m) (B : Mat m n) :
    vdot A.transpose B = vdot A B.transpose := by
  unfold vdot
  rw [Finset.sum_comm]
  exact Finset.sum_congr rfl fun o _ => Finset.sum_congr rfl fun i _ => rfl

lemma vdot_Jop_comm {n : ℕ} {I : Ten n} (hI : pairSym I) (A B : Mat n n) :
    vdot A (Jop I B) = vdot B (Jop I A) := by
  unfold vdot Jop
  simp only [Matrix.of_apply, Finset.mul_sum]
  rw [sum4_swap]
  exact sum4_congr fun M N K L => by rw [(hI K L M N).2.2]; ring

lemma vdot_Kop_comm {n : ℕ} {I : Ten n} (hI : pairSym I) (A B : Mat n n) :
    vdot A (Kop I B) = vdot B (Kop I A) := by
  unfold vdot Kop
  simp only [Matrix.of_apply, Finset.mul_sum]
  rw [sum4_swap]
  refine sum4_congr fun M N K L => ?_
  rw [(hI K M N L).1, (hI M K N L).2.1]
  ring

/-- The sequential one-index-at-a-time back-transformation equals the
documented single quadruple contraction. -/
lemma t_lnkm_eq (s : SaptIn nbf na nb nr ns)
    (t : Fin nr → Fin ns → Fin na → Fin nb → ℚ) (l n k m : Fin nbf) :
    t_lnkm s t l n k m = tDirect s t l n k m := by
  unfold t_lnkm t_lnkb t_lnab t_lsab tDirect
  simp only [Finset.sum_mul]
  rw [sum4_swap, Finset.sum_comm]
  refine Finset.sum_congr rfl fun r _ => Finset.sum_congr rfl fun u _ => ?_
  rw [Finset.sum_comm]
  exact Finset.sum_congr rfl fun a _ => Finset.sum_congr rfl fun b _ => by ring

/-- The tag `Ci.T·S·Cj` makes the cross JK call act on `X = P_A·S·P_B`. -/
lemma Kij_eq (s : SaptIn nbf na nb nr ns) :
    Kij s = Kop s.I (Pmat_A s * s.S * Pmat_B s) := by
  unfold Kij compute_sapt_JK Pmat_A Pmat_B
  simp only [Matrix.mul_assoc]

lemma Jij_eq (s : SaptIn nbf na nb nr ns) :
    Jij s = Jop s.I (Pmat_A s * s.S * Pmat_B s) := by
  unfold Jij compute_sapt_JK Pmat_A Pmat_B
  simp only [Matrix.mul_assoc]

/-- `Kij.T` is the generalized exchange matrix `K[P_B S P_A]` (symmetry
shortcut of §4.1). -/
lemma Kij_transpose (s : SaptIn nbf na nb nr ns) (hI : pairSym s.I)
    (hS : s.S.transpose = s.S) :
    (Kij s).transpose = Kop s.I (Pmat_B s * s.S * Pmat_A s) := by
  rw [Kij_eq, Kop_transpose hI]
  simp only [Matrix.transpose_mul, Pmat_A_symm, Pmat_B_symm, hS, Matrix.mul_assoc]

/-- The two-step `interm` of the last exchange-dispersion block, written as
one double contraction. -/
lemma interm4_eq (s : SaptIn nbf na nb nr ns) (k l m n : Fin nbf) :
    interm4 s k l m n
      = ∑ u, ∑ q, s.I k u m q * (s.S * Pmat_B s) l u * (s.S * Pmat_A s) n q := by
  unfold interm4
  simp only [Finset.sum_mul]
  exact Finset.sum_congr rfl fun u _ => Finset.sum_congr rfl fun q _ => by ring

set_option maxHeartbeats 4000000 in
/-- The exchange-dispersion assembly equals the contraction of its amplitude
argument against the documented 21-term bracket. -/
lemma exchDispAsm_doc (s : SaptIn nbf na nb nr ns) (hI : pairSym s.I)
    (hS : s.S.transpose = s.S) (T : Ten nbf) :
    exchDispAsm s T = ∑ l, ∑ n, ∑ k, ∑ m, T l n k m * bracket s k l m n := by
  have h1 : ((-2 : ℚ)) * (∑ l, ∑ n, ∑ k, ∑ m, T l n k m * s.I k n m l)
      = ∑ l, ∑ n, ∑ k, ∑ m, T l n k m * ((-2) * s.I k n m l) :=
    (mul_sum4 _ _).trans (sum4_congr fun l n k m => by ring)
  have h2 : ((-2 : ℚ)) * (∑ l, ∑ n, ∑ k, ∑ m, T l n k m * h_A s m l * s.S k n)
      = ∑ l, ∑ n, ∑ k, ∑ m, T l n k m * ((-2) * (s.S k n * h_A s m l)) :=
    (mul_sum4 _ _).trans (sum4_congr fun l n k m => by ring)
  have h3 : ((-2 : ℚ)) * (∑ l, ∑ n, ∑ k, ∑ m, T l n k m * s.S m l * h_B s k n)
      = ∑ l, ∑ n, ∑ k, ∑ m, T l n k m * ((-2) * (s.S m l * h_B s k n)) :=
    (mul_sum4 _ _).trans (sum4_congr fun l n k m => by ring)
  have h4 : ((-2 : ℚ)) * (∑ l, ∑ n, ∑ k, ∑ m, T l n k m * interm1 s k l m n)
      = ∑ l, ∑ n, ∑ k, ∑ m,
          T l n k m * ((-4) * (∑ q, s.I k l m q * (s.S * Pmat_A s) n q)) :=
    (mul_sum4 _ _).trans (sum4_congr fun l n k m => by simp only [interm1]; ring)
  have h5 : (∑ l, ∑ n, ∑ k, ∑ m, T l n k m * interm1 s m l k n)
      = ∑ l, ∑ n, ∑ k, ∑ m,
          T l n k m * (2 * (∑ q, s.I m l k q * (s.S * Pmat_A s) n q)) :=
    sum4_congr fun l n k m => by simp only [interm1]
  have h6 : ((-2 : ℚ)) * (∑ l, ∑ n, ∑ k, ∑ m, T l n k m * interm2 s m n k l)
      = ∑ l, ∑ n, ∑ k, ∑ m,
          T l n k m * ((-4) * (∑ q, s.I m n k q * (s.S * Pmat_B s) l q)) :=
    (mul_sum4 _ _).trans (sum4_congr fun l n k m => by simp only [interm2]; ring)
  have h7 : (∑ l, ∑ n, ∑ k, ∑ m, T l n k m * interm2 s k n m l)
      = ∑ l, ∑ n, ∑ k, ∑ m,
          T l n k m * (2 * (∑ q, s.I k n m q * (s.S * Pmat_B s) l q)) :=
    sum4_congr fun l n k m => by simp only [interm2]
  have h8 : ((-4 : ℚ)) *
        (∑ l, ∑ n, ∑ k, ∑ m, T l n k m * w_A s m n * (s.S * Pmat_B s * s.S) k l)
      = ∑ l, ∑ n, ∑ k, ∑ m,
          T l n k m * ((-4) * (w_A s m n * (s.S * Pmat_B s * s.S) k l)) :=
    (mul_sum4 _ _).trans (sum4_congr fun l n k m => by ring)
  have h9 : ((2 : ℚ)) *
        (∑ l, ∑ n, ∑ k, ∑ m, T l n k m * s.S k n * (w_A s * Pmat_B s * s.S) m l)
      = ∑ l, ∑ n, ∑ k, ∑ m,
          T l n k m * (2 * (s.S k n * (w_A s * Pmat_B s * s.S) m l)) :=
    (mul_sum4 _ _).trans (sum4_congr fun l n k m => by ring)
  have h10 : ((2 : ℚ)) *
        (∑ l, ∑ n, ∑ k, ∑ m, T l n k m * s.S m l * (w_A s * Pmat_B s * s.S) n k)
      = ∑ l, ∑ n, ∑ k, ∑ m,
          T l n k m * (2 * (s.S m l * (w_A s * Pmat_B s * s.S) n k)) :=
    (mul_sum4 _ _).trans (sum4_congr fun l n k m => by ring)
  have h11 : ((-4 : ℚ)) *
        (∑ l, ∑ n, ∑ k, ∑ m, T l n k m * w_B s k l * (s.S * Pmat_A s * s.S) m n)
      = ∑ l, ∑ n, ∑ k, ∑ m,
          T l n k m * ((-4) * (w_B s k l * (s.S * Pmat_A s * s.S) m n)) :=
    (mul_sum4 _ _).trans (sum4_congr fun l n k m => by ring)
  have h12 : ((2 : ℚ)) *
        (∑ l, ∑ n, ∑ k, ∑ m, T l n k m * s.S m l * (w_B s * Pmat_A s * s.S) k n)
      = ∑ l, ∑ n, ∑ k, ∑ m,
          T l n k m * (2 * (s.S m l * (w_B s * Pmat_A s * s.S) k n)) :=
    (mul_sum4 _ _).trans (sum4_congr fun l n k m => by ring)
  have h13 : ((2 : ℚ)) *
        (∑ l, ∑ n, ∑ k, ∑ m, T l n k m * s.S k n * (w_B s * Pmat_A s * s.S) l m)
      = ∑ l, ∑ n, ∑ k, ∑ m,
          T l n k m * (2 * (s.S k n * (w_B s * Pmat_A s * s.S) l m)) :=
    (mul_sum4 _ _).trans (sum4_congr fun l n k m => by ring)
  have h14pt : ∀ l n k m : Fin nbf, (4 : ℚ) * (T l n k m * interm3 s k l m n)
      = T l n k m * (4 * (∑ q, s.I k q m n * (s.S * Pmat_B s * s.S * Pmat_A s) l q))
        + T l n k m * (4 * (∑ p, s.I p l m n * (s.S * Pmat_B s * s.S * Pmat_A s) k p))
        + T l n k m * (4 * (∑ u, s.I k l m u * (s.S * Pmat_A s * s.S * Pmat_B s) n u))
        + T l n k m * (4 * (∑ r, s.I k l r n * (s.S * Pmat_A s * s.S * Pmat_B s) m r)) :=
    fun l n k m => by simp only [interm3, spbspa, spaspb]; ring
  have h14 : ((4 : ℚ)) * (∑ l, ∑ n, ∑ k, ∑ m, T l n k m * interm3 s k l m n)
      = (∑ l, ∑ n, ∑ k, ∑ m,
          T l n k m * (4 * (∑ q, s.I k q m n * (s.S * Pmat_B s * s.S * Pmat_A s) l q)))
        + (∑ l, ∑ n, ∑ k, ∑ m,
          T l n k m * (4 * (∑ p, s.I p l m n * (s.S * Pmat_B s * s.S * Pmat_A s) k p)))
        + (∑ l, ∑ n, ∑ k, ∑ m,
          T l n k m * (4 * (∑ u, s.I k l m u * (s.S * Pmat_A s * s.S * Pmat_B s) n u)))
        + (∑ l, ∑ n, ∑ k, ∑ m,
          T l n k m * (4 * (∑ r, s.I k l r n * (s.S * Pmat_A s * s.S * Pmat_B s) m r))) := by
    rw [mul_sum4, sum4_congr h14pt]
    simp only [Finset.sum_add_distrib]
  have h15 : ((-2 : ℚ)) *
        (∑ l, ∑ n, ∑ k, ∑ m, T l n k m * s.S k n * (Kij s).transpose m l)
      = ∑ l, ∑ n, ∑ k, ∑ m,
          T l n k m * ((-2) * (s.S k n * Kop s.I (Pmat_B s * s.S * Pmat_A s) m l)) :=
    (mul_sum4 _ _).trans
      (sum4_congr fun l n k m => by rw [Kij_transpose s hI hS]; ring)
  have h16 : ((-2 : ℚ)) *
        (∑ l, ∑ n, ∑ k, ∑ m, T l n k m * s.S m l * (Kij s).transpose n k)
      = ∑ l, ∑ n, ∑ k, ∑ m,
          T l n k m * ((-2) * (s.S m l * Kop s.I (Pmat_B s * s.S * Pmat_A s) n k)) :=
    (mul_sum4 _ _).trans
      (sum4_congr fun l n k m => by rw [Kij_transpose s hI hS]; ring)
  have h17 : ((-2 : ℚ)) * (∑ l, ∑ n, ∑ k, ∑ m, T l n k m * interm4 s m l k n)
      = ∑ l, ∑ n, ∑ k, ∑ m,
          T l n k m * ((-2) *
            (∑ u, ∑ q, s.I m u k q * (s.S * Pmat_B s) l u * (s.S * Pmat_A s) n q)) :=
    (mul_sum4 _ _).trans (sum4_congr fun l n k m => by rw [interm4_eq]; ring)
  have h18 : ((-2 : ℚ)) * (∑ l, ∑ n, ∑ k, ∑ m, T l n k m * interm4 s n k l m)
      = ∑ l, ∑ n, ∑ k, ∑ m,
          T l n k m * ((-2) *
            (∑ u, ∑ q, s.I n u l q * (s.S * Pmat_B s) k u * (s.S * Pmat_A s) m q)) :=
    (mul_sum4 _ _).trans (sum4_congr fun l n k m => by rw [interm4_eq]; ring)
  have hsplitpt : ∀ l n k m : Fin nbf, T l n k m * bracket s k l m n
      = T l n k m * ((-2) * s.I k n m l)
        + T l n k m * ((-2) * (s.S k n * h_A s m l))
        + T l n k m * ((-2) * (s.S m l * h_B s k n))
        + T l n k m * ((-4) * (∑ q, s.I k l m q * (s.S * Pmat_A s) n q))
        + T l n k m * (2 * (∑ q, s.I m l k q * (s.S * Pmat_A s) n q))
        + T l n k m * ((-4) * (∑ q, s.I m n k q * (s.S * Pmat_B s) l q))
        + T l n k m * (2 * (∑ q, s.I k n m q * (s.S * Pmat_B s) l q))
        + T l n k m * ((-4) * (w_A s m n * (s.S * Pmat_B s * s.S) k l))
        + T l n k m * (2 * (s.S k n * (w_A s * Pmat_B s * s.S) m l))
        + T l n k m * (2 * (s.S m l * (w_A s * Pmat_B s * s.S) n k))
        + T l n k m * ((-4) * (w_B s k l * (s.S * Pmat_A s * s.S) m n))
        + T l n k m * (2 * (s.S m l * (w_B s * Pmat_A s * s.S) k n))
        + T l n k m * (2 * (s.S k n * (w_B s * Pmat_A s * s.S) l m))
        + T l n k m * (4 * (∑ q, s.I k q m n * (s.S * Pmat_B s * s.S * Pmat_A s) l q))
        + T l n k m * (4 * (∑ p, s.I p l m n * (s.S * Pmat_B s * s.S * Pmat_A s) k p))
        + T l n k m * (4 * (∑ u, s.I k l m u * (s.S * Pmat_A s * s.S * Pmat_B s) n u))
        + T l n k m * (4 * (∑ r, s.I k l r n * (s.S * Pmat_A s * s.S * Pmat_B s) m r))
        + T l n k m * ((-2) * (s.S k n * Kop s.I (Pmat_B s * s.S * Pmat_A s) m l))
        + T l n k m * ((-2) * (s.S m l * Kop s.I (Pmat_B s * s.S * Pmat_A s) n k))
        + T l n k m * ((-2) *
            (∑ u, ∑ q, s.I m u k q * (s.S * Pmat_B s) l u * (s.S * Pmat_A s) n q))
        + T l n k m * ((-2) *
            (∑ u, ∑ q, s.I n u l q * (s.S * Pmat_B s) k u * (s.S * Pmat_A s) m q)) :=
    fun l n k m => by simp only [bracket]; ring
  unfold exchDispAsm
  rw [sum4_congr hsplitpt]
  simp only [Finset.sum_add_distrib]
  linear_combination h1 + h2 + h3 + h4 + h5 + h6 + h7 + h8 + h9 + h10 + h11 + h12
    + h13 + h14 + h15 + h16 + h17 + h18

/-- The exchange-dispersion assembly is linear in the AO amplitude. -/
lemma exchDispAsm_smul (s : SaptIn nbf na nb nr ns) (c : ℚ) (T : Ten nbf) :
    exchDispAsm s (fun l n k m => c * T l n k m) = c * exchDispAsm s T := by
  have e1 : (∑ l, ∑ n, ∑ k, ∑ m, c * T l n k m * s.I k n m l)
      = c * ∑ l, ∑ n, ∑ k, ∑ m, T l n k m * s.I k n m l := by
    rw [mul_sum4]; exact sum4_congr fun l n k m => by ring
  have e2 : (∑ l, ∑ n, ∑ k, ∑ m, c * T l n k m * h_A s m l * s.S k n)
      = c * ∑ l, ∑ n, ∑ k, ∑ m, T l n k m * h_A s m l * s.S k n := by
    rw [mul_sum4]; exact sum4_congr fun l n k m => by ring
  have e3 : (∑ l, ∑ n, ∑ k, ∑ m, c * T l n k m * s.S m l * h_B s k n)
      = c * ∑ l, ∑ n, ∑ k, ∑ m, T l n k m * s.S m l * h_B s k n := by
    rw [mul_sum4]; exact sum4_congr fun l n k m => by ring
  have e4 : (∑ l, ∑ n, ∑ k, ∑ m, c * T l n k m * interm1 s k l m n)
      = c * ∑ l, ∑ n, ∑ k, ∑ m, T l n k m * interm1 s k l m n := by
    rw [mul_sum4]; exact sum4_congr fun l n k m => by ring
  have e5 : (∑ l, ∑ n, ∑ k, ∑ m, c * T l n k m * interm1 s m l k n)
      = c * ∑ l, ∑ n, ∑ k, ∑ m, T l n k m * interm1 s m l k n := by
    rw [mul_sum4]; exact sum4_congr fun l n k m => by ring
  have e6 : (∑ l, ∑ n, ∑ k, ∑ m, c * T l n k m * interm2 s m n k l)
      = c * ∑ l, ∑ n, ∑ k, ∑ m, T l n k m * interm2 s m n k l := by
    rw [mul_sum4]; exact sum4_congr fun l n k m => by ring
  have e7 : (∑ l, ∑ n, ∑ k, ∑ m, c * T l n k m * interm2 s k n m l)
      = c * ∑ l, ∑ n, ∑ k, ∑ m, T l n k m * interm2 s k n m l := by
    rw [mul_sum4]; exact sum4_congr fun l n k m => by ring
  have e8 : (∑ l, ∑ n, ∑ k, ∑ m, c * T l n k m * w_A s m n * (s.S * Pmat_B s * s.S) k l)
      = c * ∑ l, ∑ n, ∑ k, ∑ m, T l n k m * w_A s m n * (s.S * Pmat_B s * s.S) k l := by
    rw [mul_sum4]; exact sum4_congr fun l n k m => by ring
  have e9 : (∑ l, ∑ n, ∑ k, ∑ m, c * T l n k m * s.S k n * (w_A s * Pmat_B s * s.S) m l)
      = c * ∑ l, ∑ n, ∑ k, ∑ m, T l n k m * s.S k n * (w_A s * Pmat_B s * s.S) m l := by
    rw [mul_sum4]; exact sum4_congr fun l n k m => by ring
  have e10 : (∑ l, ∑ n, ∑ k, ∑ m, c * T l n k m * s.S m l * (w_A s * Pmat_B s * s.S) n k)
      = c * ∑ l, ∑ n, ∑ k, ∑ m, T l n k m * s.S m l * (w_A s * Pmat_B s * s.S) n k := by
    rw [mul_sum4]; exact sum4_congr fun l n k m => by ring
  have e11 : (∑ l, ∑ n, ∑ k, ∑ m, c * T l n k m * w_B s k l * (s.S * Pmat_A s * s.S) m n)
      = c * ∑ l, ∑ n, ∑ k, ∑ m, T l n k m * w_B s k l * (s.S * Pmat_A s * s.S) m n := by
    rw [mul_sum4]; exact sum4_congr fun l n k m => by ring
  have e12 : (∑ l, ∑ n, ∑ k, ∑ m, c * T l n k m * s.S m l * (w_B s * Pmat_A s * s.S) k n)
      = c * ∑ l, ∑ n, ∑ k, ∑ m, T l n k m * s.S m l * (w_B s * Pmat_A s * s.S) k n := by
    rw [mul_sum4]; exact sum4_congr fun l n k m => by ring
  have e13 : (∑ l, ∑ n, ∑ k, ∑ m, c * T l n k m * s.S k n * (w_B s * Pmat_A s * s.S) l m)
      = c * ∑ l, ∑ n, ∑ k, ∑ m, T l n k m * s.S k n * (w_B s * Pmat_A s * s.S) l m := by
    rw [mul_sum4]; exact sum4_congr fun l n k m => by ring
  have e14 : (∑ l, ∑ n, ∑ k, ∑ m, c * T l n k m * interm3 s k l m n)
      = c * ∑ l, ∑ n, ∑ k, ∑ m, T l n k m * interm3 s k l m n := by
    rw [mul_sum4]; exact sum4_congr fun l n k m => by ring
  have e15 : (∑ l, ∑ n, ∑ k, ∑ m, c * T l n k m * s.S k n * (Kij s).transpose m l)
      = c * ∑ l, ∑ n, ∑ k, ∑ m, T l n k m * s.S k n * (Kij s).transpose m l := by
    rw [mul_sum4]; exact sum4_congr fun l n k m => by ring
  have e16 : (∑ l, ∑ n, ∑ k, ∑ m, c * T l n k m * s.S m l * (Kij s).transpose n k)
      = c * ∑ l, ∑ n, ∑ k, ∑ m, T l n k m * s.S m l * (Kij s).transpose n k := by
    rw [mul_sum4]; exact sum4_congr fun l n k m => by ring
  have e17 : (∑ l, ∑ n, ∑ k, ∑ m, c * T l n k m * interm4 s m l k n)
      = c * ∑ l, ∑ n, ∑ k, ∑ m, T l n k m * interm4 s m l k n := by
    rw [mul_sum4]; exact sum4_congr fun l n k m => by ring
  have e18 : (∑ l, ∑ n, ∑ k, ∑ m, c * T l n k m * interm4 s n k l m)
      = c * ∑ l, ∑ n, ∑ k, ∑ m, T l n k m * interm4 s n k l m := by
    rw [mul_sum4]; exact sum4_congr fun l n k m => by ring
  unfold exchDispAsm
  simp only []
  linear_combination (-2 : ℚ) * e1 - 2 * e2 - 2 * e3 - 2 * e4 + e5 - 2 * e6 + e7
    - 4 * e8 + 2 * e9 + 2 * e10 - 4 * e11 + 2 * e12 + 2 * e13 + 4 * e14 - 2 * e15
    - 2 * e16 - 2 * e17 - 2 * e18

/-- The identity-equivalent default tag makes the plain JK calls act on the
monomer densities. -/
lemma Jii_eq (s : SaptIn nbf na nb nr ns) : Jii s = Jop s.I (Pmat_A s) := by
  unfold Jii compute_sapt_JK Pmat_A
  rw [Matrix.mul_one]

lemma Kii_eq (s : SaptIn nbf na nb nr ns) : Kii s = Kop s.I (Pmat_A s) := by
  unfold Kii compute_sapt_JK Pmat_A
  rw [Matrix.mul_one]

lemma Jjj_eq (s : SaptIn nbf na nb nr ns) : Jjj s = Jop s.I (Pmat_B s) := by
  unfold Jjj compute_sapt_JK Pmat_B
  rw [Matrix.mul_one]

lemma Kjj_eq (s : SaptIn nbf na nb nr ns) : Kjj s = Kop s.I (Pmat_B s) := by
  unfold Kjj compute_sapt_JK Pmat_B
  rw [Matrix.mul_one]

lemma Kop_symm {n : ℕ} {I : Ten n} (hI : pairSym I) {X : Mat n n}
    (hX : X.transpose = X) : (Kop I X).transpose = Kop I X := by
  rw [Kop_transpose hI, hX]

lemma PSP_transpose (s : SaptIn nbf na nb nr ns) (hS : s.S.transpose = s.S) :
    (Pmat_A s * s.S * Pmat_B s).transpose = Pmat_B s * s.S * Pmat_A s := by
  simp only [Matrix.transpose_mul, Pmat_A_symm, Pmat_B_symm, hS, Matrix.mul_assoc]

lemma Jii_symm (s : SaptIn nbf na nb nr ns) (hI : pairSym s.I) :
    (Jii s).transpose = Jii s := by
  rw [Jii_eq]; exact Jop_symm hI _

lemma Jjj_symm (s : SaptIn nbf na nb nr ns) (hI : pairSym s.I) :
    (Jjj s).transpose = Jjj s := by
  rw [Jjj_eq]; exact Jop_symm hI _

lemma Kii_symm (s : SaptIn nbf na nb nr ns) (hI : pairSym s.I) :
    (Kii s).transpose = Kii s := by
  rw [Kii_eq]; exact Kop_symm hI (Pmat_A_symm s)

lemma Kjj_symm (s : SaptIn nbf na nb nr ns) (hI : pairSym s.I) :
    (Kjj s).transpose = Kjj s := by
  rw [Kjj_eq]; exact Kop_symm hI (Pmat_B_symm s)

lemma h_A_symm (s : SaptIn nbf na nb nr ns) (hI : pairSym s.I)
    (hVA : s.V_A.transpose = s.V_A) : (h_A s).transpose = h_A s := by
  unfold h_A
  rw [Matrix.transpose_sub, Matrix.transpose_add, Matrix.transpose_smul, hVA,
    Jii_symm s hI, Kii_symm s hI]

lemma h_B_symm (s : SaptIn nbf na nb nr ns) (hI : pairSym s.I)
    (hVB : s.V_B.transpose = s.V_B) : (h_B s).transpose = h_B s := by
  unfold h_B
  rw [Matrix.transpose_sub, Matrix.transpose_add, Matrix.transpose_smul, hVB,
    Jjj_symm s hI, Kjj_symm s hI]

/-- `Jij` is invariant under the monomer swap (symmetry shortcut of §4.1). -/
lemma Jij_swap (s : SaptIn nbf na nb nr ns) (hI : pairSym s.I)
    (hS : s.S.transpose = s.S) : Jij (swapAB s) = Jij s := by
  rw [Jij_eq (swapAB s), Jij_eq s]
  have e0 : Jop (swapAB s).I (Pmat_A (swapAB s) * (swapAB s).S * Pmat_B (swapAB s))
      = Jop s.I (Pmat_B s * s.S * Pmat_A s) := rfl
  rw [e0, ← PSP_transpose s hS, Jop_transpose_arg hI]

/-- `Kij` transposes under the monomer swap (symmetry shortcut of §4.1). -/
lemma Kij_swap (s : SaptIn nbf na nb nr ns) (hI : pairSym s.I)
    (hS : s.S.transpose = s.S) : Kij (swapAB s) = (Kij s).transpose := by
  rw [Kij_transpose s hI hS, Kij_eq (swapAB s)]
  rfl

lemma Elst10_swap (s : SaptIn nbf na nb nr ns) (hI : pairSym s.I) :
    Elst10 (swapAB s) = Elst10 s := by
  have e0 : Elst10 (swapAB s)
      = elstAsm (Pmat_B s) (Pmat_A s) (Jii s) s.V_B s.V_A s.nuc_rep := rfl
  have hJ : vdot (Pmat_B s) (Jii s) = vdot (Pmat_A s) (Jjj s) := by
    rw [Jii_eq, Jjj_eq]
    exact vdot_Jop_comm hI _ _
  rw [e0]
  unfold Elst10 elstAsm
  linear_combination 4 * hJ

lemma Exch100_swap (s : SaptIn nbf na nb nr ns) (hI : pairSym s.I)
    (hS : s.S.transpose = s.S) (hVA : s.V_A.transpose = s.V_A)
    (hVB : s.V_B.transpose = s.V_B) : Exch100 (swapAB s) = Exch100 s := by
  have e0 : Exch100 (swapAB s)
      = exchAsm (Pmat_B s) (Pmat_A s) s.S (h_B s) (h_A s) (w_B s) (w_A s)
          (Kjj s) (Kij (swapAB s)) := rfl
  rw [e0, Kij_swap s hI hS]
  have hT1 : vdot (Pmat_A s) (Kjj s) = vdot (Pmat_B s) (Kii s) := by
    rw [Kjj_eq, Kii_eq]
    exact vdot_Kop_comm hI _ _
  have hT2 : vdot (Pmat_B s * s.S * Pmat_A s) (h_B s + h_A s)
      = vdot (Pmat_A s * s.S * Pmat_B s) (h_A s + h_B s) := by
    rw [← PSP_transpose s hS, vdot_transpose, Matrix.transpose_add,
      h_A_symm s hI hVA, h_B_symm s hI hVB, add_comm (h_B s) (h_A s)]
  have hT5 : vdot (Pmat_B s * s.S * Pmat_A s) (Kij s).transpose
      = vdot (Pmat_A s * s.S * Pmat_B s) (Kij s) := by
    rw [← PSP_transpose s hS, vdot_transpose, Matrix.transpose_transpose]
  unfold Exch100 exchAsm
  linear_combination (-2 : ℚ) * hT1 - 2 * hT2 - 2 * hT5

lemma Disp200_swap (s : SaptIn nbf na nb nr ns) :
    Disp200 (swapAB s) = Disp200 s := by
  have hpt : ∀ (r : Fin ns) (u : Fin nr) (a : Fin nb) (b : Fin na),
      e_rsab (swapAB s) r u a b * (swapAB s).v_rsab r u a b
          * (swapAB s).v_abrs a b r u
        = e_rsab s u r b a * s.v_rsab u r b a * s.v_abrs b a u r := by
    intro r u a b
    simp only [e_rsab, swapAB]
    rw [show -(s.eps_s r) - s.eps_r u + s.eps_b a + s.eps_a b
        = -(s.eps_r u) - s.eps_s r + s.eps_a b + s.eps_b a from by ring]
  unfold Disp200
  congr 1
  rw [sum4_congr hpt, Finset.sum_comm]
  refine Finset.sum_congr rfl fun u _ => Finset.sum_congr rfl fun r _ => ?_
  rw [Finset.sum_comm]

lemma ExchInd20_ab_swap (s : SaptIn nbf na nb nr ns) (hI : pairSym s.I)
    (hS : s.S.transpose = s.S) : ExchInd20_ab (swapAB s) = ExchInd20_ba s := by
  have e0 : ExchInd20_ab (swapAB s)
      = exchIndABAsm (CPHFB_ao s) (Kii s) s.S (Pmat_A s) (h_B s) (h_A s)
          (Jij (swapAB s)) (Kij (swapAB s)) (w_A s) (Pmat_B s) (w_B s)
          (Jiji s) (Kiji s) := rfl
  rw [e0, Jij_swap s hI hS, Kij_swap s hI hS]
  unfold ExchInd20_ba ExchInd20_ba_with exchIndABAsm exchIndBAAsm
  rw [Matrix.transpose_transpose]

lemma ExchInd20_ba_swap (s : SaptIn nbf na nb nr ns) (hI : pairSym s.I)
    (hS : s.S.transpose = s.S) : ExchInd20_ba (swapAB s) = ExchInd20_ab s := by
  have e0 : ExchInd20_ba (swapAB s)
      = exchIndBAAsm (CPHFA_ao s) (Kjj s) s.S (Pmat_B s) (h_A s) (h_B s)
          (Jij (swapAB s)) (Kij (swapAB s)) (w_B s) (Pmat_A s) (w_A s)
          (Jjij s) (Kjij s) := rfl
  rw [e0, Jij_swap s hI hS, Kij_swap s hI hS]
  unfold ExchInd20_ab ExchInd20_ab_with exchIndABAsm exchIndBAAsm
  rw [Matrix.transpose_transpose]

/-! ## The claims -/

/-- C1: the AO back-transformed amplitude `t_lnkm` equals the documented
quadruple contraction `t_rsab·C_Ka·C_Mb·C_Lr·C_Ns`, and the exchange-
dispersion energy `ExchDisp20` equals the contraction of that amplitude
against the documented multi-term bracket, each term with exactly its
specified coefficient (−2, −4, +2, +4) and index permutation, given the data
model's integral-tensor pair symmetries and a symmetric overlap. -/
theorem exchDisp20_equals_documented_contraction (s : SaptIn nbf na nb nr ns)
    (hI : pairSym s.I) (hS : s.S.transpose = s.S) :
    (∀ l n k m, t_lnkm s (t_rsab s) l n k m = tDirect s (t_rsab s) l n k m) ∧
      ExchDisp20 s = ExchDisp20doc s := by
  refine ⟨fun l n k m => t_lnkm_eq s _ l n k m, ?_⟩
  unfold ExchDisp20 ExchDisp20doc
  rw [exchDispAsm_doc s hI hS]
  exact sum4_congr fun l n k m => by rw [t_lnkm_eq]

theorem exchDisp20_equals_documented_contraction_witness :
    pairSym sEx.I ∧ sEx.S.transpose = sEx.S ∧
    ((∀ l n k m,
        t_lnkm sEx (t_rsab sEx) l n k m = tDirect sEx (t_rsab sEx) l n k m) ∧
      ExchDisp20 sEx = ExchDisp20doc sEx) :=
  ⟨fun K L M N => ⟨rfl, rfl, rfl⟩, by ext i j; rfl,
    exchDisp20_equals_documented_contraction sEx
      (fun K L M N => ⟨rfl, rfl, rfl⟩) (by ext i j; rfl)⟩

/-- C2: the first-order exchange energy equals
`−2⟨P_B,K[P_A]⟩ − 2⟨P_A S P_B, F_A+F_B⟩ + 2⟨P_B S P_A S P_B, ω_A⟩
+ 2⟨P_A S P_B S P_A, ω_B⟩ − 2⟨P_A S P_B, K[P_A S P_B]⟩`, the chained
products being left-to-right matrix multiplications. -/
theorem exch100_equals_spec_formula (s : SaptIn nbf na nb nr ns) :
    Exch100 s
      = -2 * vdot (Pmat_B s) (Kop s.I (Pmat_A s))
        - 2 * vdot (Pmat_A s * s.S * Pmat_B s) (h_A s + h_B s)
        + 2 * vdot (Pmat_B s * s.S * Pmat_A s * s.S * Pmat_B s) (w_A s)
        + 2 * vdot (Pmat_A s * s.S * Pmat_B s * s.S * Pmat_A s) (w_B s)
        - 2 * vdot (Pmat_A s * s.S * Pmat_B s)
            (Kop s.I (Pmat_A s * s.S * Pmat_B s)) := by
  unfold Exch100 exchAsm
  rw [Kii_eq, Kij_eq]
  ring

/-- C3: the electrostatic energy equals
`2·(2·⟨P_A,J[P_B]⟩ + ⟨V_A,P_B⟩ + ⟨V_B,P_A⟩) + V_nuc` with `⟨·,·⟩` the
Frobenius inner product. -/
theorem elst10_equals_spec_formula (s : SaptIn nbf na nb nr ns) :
    Elst10 s = 2 * (2 * vdot (Pmat_A s) (Jop s.I (Pmat_B s))
      + vdot s.V_A (Pmat_B s) + vdot s.V_B (Pmat_A s)) + s.nuc_rep := by
  unfold Elst10 elstAsm
  rw [Jjj_eq]

/-- C4 counterexample: at `sEx` every dispersion denominator is nonzero
(it equals 3), yet `Disp200` differs from the claimed
`4·Σ t_rsab·v_rsab·v_abrs` with `t_rsab = v_rsab/(ε_a+ε_b−ε_r−ε_s)`: that
expression carries `v_rsab` twice, while the code contracts the reciprocal
denominator once against `v_rsab·v_abrs` (here `8/3` versus `16/3`). -/
theorem disp200_claimed_formula_fails :
    (∀ (r u a b : Fin 1),
        sEx.eps_a a + sEx.eps_b b - sEx.eps_r r - sEx.eps_s u ≠ 0) ∧
    Disp200 sEx ≠ 4 * ∑ r : Fin 1, ∑ u : Fin 1, ∑ a : Fin 1, ∑ b : Fin 1,
      sEx.v_rsab r u a b
          / (sEx.eps_a a + sEx.eps_b b - sEx.eps_r r - sEx.eps_s u)
        * sEx.v_rsab r u a b * sEx.v_abrs a b r u := by
  constructor
  · intro r u a b
    norm_num [sEx]
  · norm_num [Disp200, e_rsab, sEx, Fin.sum_univ_one]

/-- C4 amended: whenever every denominator `ε_a+ε_b−ε_r−ε_s` is nonzero,
the dispersion energy equals `4·Σ t_rsab·v_abrs` with the amplitude
`t_rsab = v_rsab/(ε_a+ε_b−ε_r−ε_s)` computed element-wise (the raw
integral `v_rsab` enters the contraction once, inside the amplitude). -/
theorem disp200_equals_amplitude_contraction (s : SaptIn nbf na nb nr ns)
    (h : ∀ (r : Fin nr) (u : Fin ns) (a : Fin na) (b : Fin nb),
      s.eps_a a + s.eps_b b - s.eps_r r - s.eps_s u ≠ 0) :
    Disp200 s = 4 * ∑ r, ∑ u, ∑ a, ∑ b,
      s.v_rsab r u a b / (s.eps_a a + s.eps_b b - s.eps_r r - s.eps_s u)
        * s.v_abrs a b r u := by
  unfold Disp200 e_rsab
  congr 1
  refine sum4_congr fun r u a b => ?_
  rw [show -(s.eps_r r) - s.eps_s u + s.eps_a a + s.eps_b b
      = s.eps_a a + s.eps_b b - s.eps_r r - s.eps_s u from by ring]
  ring

theorem disp200_equals_amplitude_contraction_witness :
    (∀ (r u a b : Fin 1),
        sEx.eps_a a + sEx.eps_b b - sEx.eps_r r - sEx.eps_s u ≠ 0) ∧
    Disp200 sEx = 4 * ∑ r, ∑ u, ∑ a, ∑ b,
      sEx.v_rsab r u a b
          / (sEx.eps_a a + sEx.eps_b b - sEx.eps_r r - sEx.eps_s u)
        * sEx.v_abrs a b r u :=
  ⟨by intro r u a b; norm_num [sEx],
    disp200_equals_amplitude_contraction sEx (by intro r u a b; norm_num [sEx])⟩

/-- C5: the dispersion cell contains no detection of a vanishing
denominator: at `sZero` the denominator `ε_a+ε_b−ε_r−ε_s` is exactly zero
and the integral slice is nonzero, yet the computation simply evaluates
(the rational embedding of the unguarded division yields `0`, and `numpy`
would propagate `inf`) — no distinct numerical-instability error exists in
the code's data flow. -/
theorem disp200_silent_on_zero_denominator :
    sZero.eps_a 0 + sZero.eps_b 0 - sZero.eps_r 0 - sZero.eps_s 0 = 0 ∧
    sZero.v_rsab 0 0 0 0 = 1 ∧
    e_rsab sZero 0 0 0 0 = 0 ∧
    Disp200 sZero = 0 := by
  refine ⟨by norm_num [sZero], rfl, by norm_num [e_rsab, sZero], ?_⟩
  norm_num [Disp200, e_rsab, sZero, Fin.sum_univ_one]

/-- C6: for a pair-symmetric integral tensor and symmetric `P_A`, `P_B`,
`S`, the generalized operators satisfy `J[P_B S P_A] = J[P_A S P_B]` and
`K[P_B S P_A] = K[P_A S P_B]ᵀ`, so computing only the (A,B) pair and
transposing is equivalent to the redundant contraction. -/
theorem jk_cross_symmetry_shortcut {n : ℕ} (I : Ten n) (PA PB S : Mat n n)
    (hI : pairSym I) (hPA : PA.transpose = PA) (hPB : PB.transpose = PB)
    (hS : S.transpose = S) :
    Jop I (PB * S * PA) = Jop I (PA * S * PB) ∧
      Kop I (PB * S * PA) = (Kop I (PA * S * PB)).transpose := by
  have hX : (PA * S * PB).transpose = PB * S * PA := by
    simp only [Matrix.transpose_mul, hPA, hPB, hS, Matrix.mul_assoc]
  exact ⟨by rw [← hX, Jop_transpose_arg hI], by rw [Kop_transpose hI, hX]⟩

theorem jk_cross_symmetry_shortcut_witness :
    pairSym sEx.I ∧ (Pmat_A sEx).transpose = Pmat_A sEx ∧
    (Pmat_B sEx).transpose = Pmat_B sEx ∧ sEx.S.transpose = sEx.S ∧
    (Jop sEx.I (Pmat_B sEx * sEx.S * Pmat_A sEx)
        = Jop sEx.I (Pmat_A sEx * sEx.S * Pmat_B sEx) ∧
      Kop sEx.I (Pmat_B sEx * sEx.S * Pmat_A sEx)
        = (Kop sEx.I (Pmat_A sEx * sEx.S * Pmat_B sEx)).transpose) :=
  ⟨fun K L M N => ⟨rfl, rfl, rfl⟩, Pmat_A_symm sEx, Pmat_B_symm sEx,
    by ext i j; rfl,
    jk_cross_symmetry_shortcut sEx.I (Pmat_A sEx) (Pmat_B sEx) sEx.S
      (fun K L M N => ⟨rfl, rfl, rfl⟩) (Pmat_A_symm sEx) (Pmat_B_symm sEx)
      (by ext i j; rfl)⟩

/-- C7: swapping the monomer labels A↔B throughout all inputs leaves the
electrostatic, first-order exchange and dispersion energies unchanged, and
exchanges the two directional induction and exchange-induction
contributions, given the integral-tensor pair symmetries and symmetric
one-electron matrices. -/
theorem monomer_swap_symmetry (s : SaptIn nbf na nb nr ns) (hI : pairSym s.I)
    (hS : s.S.transpose = s.S) (hVA : s.V_A.transpose = s.V_A)
    (hVB : s.V_B.transpose = s.V_B) :
    Elst10 (swapAB s) = Elst10 s ∧ Exch100 (swapAB s) = Exch100 s ∧
    Disp200 (swapAB s) = Disp200 s ∧
    (swapAB s).Ind20_ba = s.Ind20_ab ∧ (swapAB s).Ind20_ab = s.Ind20_ba ∧
    ExchInd20_ab (swapAB s) = ExchInd20_ba s ∧
    ExchInd20_ba (swapAB s) = ExchInd20_ab s :=
  ⟨Elst10_swap s hI, Exch100_swap s hI hS hVA hVB, Disp200_swap s, rfl, rfl,
    ExchInd20_ab_swap s hI hS, ExchInd20_ba_swap s hI hS⟩

theorem monomer_swap_symmetry_witness :
    pairSym sEx.I ∧ sEx.S.transpose = sEx.S ∧ sEx.V_A.transpose = sEx.V_A ∧
    sEx.V_B.transpose = sEx.V_B ∧
    (Elst10 (swapAB sEx) = Elst10 sEx ∧ Exch100 (swapAB sEx) = Exch100 sEx ∧
      Disp200 (swapAB sEx) = Disp200 sEx ∧
      (swapAB sEx).Ind20_ba = sEx.Ind20_ab ∧
      (swapAB sEx).Ind20_ab = sEx.Ind20_ba ∧
      ExchInd20_ab (swapAB sEx) = ExchInd20_ba sEx ∧
      ExchInd20_ba (swapAB sEx) = ExchInd20_ab sEx) :=
  ⟨fun K L M N => ⟨rfl, rfl, rfl⟩, by ext i j; rfl, by ext i j; rfl,
    by ext i j; rfl,
    monomer_swap_symmetry sEx (fun K L M N => ⟨rfl, rfl, rfl⟩)
      (by ext i j; rfl) (by ext i j; rfl) (by ext i j; rfl)⟩

/-- C8: scaling the raw amplitude tensor by a constant scales the AO
back-transformed amplitude, and hence the assembled exchange-dispersion
energy, by exactly that constant; in particular replacing `t_rsab` by
`c·t_rsab` multiplies `ExchDisp20` by `c`. -/
theorem exchDisp20_linear_in_amplitude (s : SaptIn nbf na nb nr ns) (c : ℚ) :
    (∀ t : Fin nr → Fin ns → Fin na → Fin nb → ℚ, ∀ l n k m,
        t_lnkm s (fun r u a b => c * t r u a b) l n k m
          = c * t_lnkm s t l n k m) ∧
    (∀ t : Fin nr → Fin ns → Fin na → Fin nb → ℚ,
        exchDispAsm s (t_lnkm s (fun r u a b => c * t r u a b))
          = c * exchDispAsm s (t_lnkm s t)) ∧
    exchDispAsm s (t_lnkm s (fun r u a b => c * t_rsab s r u a b))
      = c * ExchDisp20 s := by
  have hpt : ∀ t : Fin nr → Fin ns → Fin na → Fin nb → ℚ, ∀ l n k m,
      t_lnkm s (fun r u a b => c * t r u a b) l n k m
        = c * t_lnkm s t l n k m := by
    intro t l n k m
    rw [t_lnkm_eq, t_lnkm_eq]
    unfold tDirect
    rw [mul_sum4]
    exact sum4_congr fun r u a b => by ring
  have hasm : ∀ t : Fin nr → Fin ns → Fin na → Fin nb → ℚ,
      exchDispAsm s (t_lnkm s (fun r u a b => c * t r u a b))
        = c * exchDispAsm s (t_lnkm s t) := by
    intro t
    have hT : t_lnkm s (fun r u a b => c * t r u a b)
        = fun l n k m => c * t_lnkm s t l n k m :=
      funext fun l => funext fun n => funext fun k => funext fun m =>
        hpt t l n k m
    rw [hT, exchDispAsm_smul]
  exact ⟨hpt, hasm, hasm (t_rsab s)⟩

/-- C9: the exchange companions `Kjij`/`Kiji` of the two extra JK-builder
calls are dead values — the exchange-induction energies and the SAPT0 total
do not depend on them. -/
theorem exchInd_K_companions_dead (s : SaptIn nbf na nb nr ns)
    (K1 K1' K2 K2' : Mat nbf nbf) :
    ExchInd20_ab_with s K1 = ExchInd20_ab_with s K1' ∧
    ExchInd20_ba_with s K2 = ExchInd20_ba_with s K2' ∧
    sapt0With s K1 K2 = sapt0With s K1' K2' ∧
    sapt0 s = sapt0With s (Kjij s) (Kiji s) :=
  ⟨rfl, rfl, rfl, rfl⟩

/-- C10: the direct dispersion contraction `4·Σ e·v_rsab·v_abrs` equals
`4·Σ t_rsab·v_abrs` with the amplitude `t_rsab = v_rsab·e_rsab` built for
the exchange-dispersion step. -/
theorem disp200_refines_amplitude_form (s : SaptIn nbf na nb nr ns) :
    Disp200 s = 4 * ∑ r, ∑ u, ∑ a, ∑ b, t_rsab s r u a b * s.v_abrs a b r u := by
  unfold Disp200 t_rsab
  congr 1
  exact sum4_congr fun r u a b => by ring

end Sapt
